import Mathlib

/-!
Shallow embedding of the bate-papo UOL chat backend (Express + MongoDB).

The repository has three source variants of the same server:
* `src/unnamed/part_000` — the fullest variant (sanitization, edit/delete
  routes, reaper that also emits departure messages); it is the authority
  for most operations below, embedded without a suffix or with suffix `V0`.
* `src/unnamed/part_001` — an earlier variant whose GET /messages limit
  branch omits the final reverse; embedded as `listMessagesV1`.
* `src/index.js` — an earlier variant whose POST /messages spreads the
  request body over the `from` field; embedded as `sendMessageIndex`.

The document store is modelled as in-memory lists in insertion order with a
store-assigned numeric id counter (MongoDB ObjectIds are creation-ordered
and unique; only identity and insertion order matter to the handlers).
Wall-clock values (`Date.now()`, `dayjs().format("HH:mm:ss")`) are passed in
as explicit parameters `now : Int` (epoch milliseconds) and `ts : String`.
-/

/-- Modelled from the spec: the Sanitizer component is the external
`string-strip-html` library, absent from `src/`; spec §4.1 gives its
contract: "strips any markup/tags and trims surrounding whitespace".
This scanner drops every `<...>` span (the flag records being inside a
tag), keeping all other characters. -/
def stripTagsAux : Bool → List Char → List Char
  | _, [] => []
  | false, c :: rest =>
    if c = '<' then stripTagsAux true rest else c :: stripTagsAux false rest
  | true, c :: rest =>
    if c = '>' then stripTagsAux false rest else stripTagsAux true rest

/-- Remove whitespace from both ends of a character list
(JS `String.prototype.trim`). -/
def trimChars (l : List Char) : List Char :=
  ((l.dropWhile Char.isWhitespace).reverse.dropWhile Char.isWhitespace).reverse

/-- Modelled from the spec: `stripHtml(s).result.trim()` as used throughout
`src/unnamed/part_000` — strip markup, then trim surrounding whitespace. -/
def sanitize (s : String) : String :=
  String.mk (trimChars (stripTagsAux false s.toList))

/-- Whether `pat` is a prefix of `hay`. -/
def prefixMatch : List Char → List Char → Bool
  | [], _ => true
  | _ :: _, [] => false
  | a :: as, b :: bs => a == b && prefixMatch as bs

/-- Whether `pat` occurs contiguously anywhere inside `hay`. -/
def substrMatch (pat : List Char) : List Char → Bool
  | [] => pat.isEmpty
  | c :: rest => prefixMatch pat (c :: rest) || substrMatch pat rest

/-- Models the MongoDB filter `{name: {$regex: pattern, $options: "i"}}`
used by the POST /participants uniqueness check, for a metacharacter-free
pattern: the pattern matches anywhere inside `stored`, case-insensitively,
i.e. case-insensitive substring containment. -/
def nameMatches (pat stored : String) : Bool :=
  substrMatch (pat.toList.map Char.toLower) (stored.toList.map Char.toLower)

/-- A document of the `participants` collection. -/
structure Participant where
  name : String
  lastStatus : Int
deriving Repr, DecidableEq

/-- A document of the `messages` collection; `id` stands for the
store-assigned `_id`. -/
structure Message where
  id : Nat
  «from» : String
  «to» : String
  text : String
  type : String
  time : String
deriving Repr, DecidableEq

/-- The database `batepapouol`: both collections in insertion order, plus
the id counter the store uses for new message documents. -/
structure Db where
  participants : List Participant
  messages : List Message
  nextId : Nat
deriving Repr, DecidableEq

/-- The response statuses the handlers produce.  `created` is HTTP 201,
`ok` 200, `validationError` 422 (joi schema errors), `conflict` 409,
`unregistered` 422 with body "Participante não encontrado", `notFound` 404,
`unauthorized` 401. -/
inductive Status where
  | created
  | ok
  | validationError
  | conflict
  | unregistered
  | notFound
  | unauthorized
deriving Repr, DecidableEq

/-- A POST /messages (and PUT /messages/:id) request body.  `extraFrom`
models a client-supplied `from` key in the JSON body: joi's default
`object` behaviour rejects unknown keys, so validation only passes when it
is `none`; `src/index.js` spreads the body over `{from: from, ...}`, which
such a key would override. -/
structure MsgBody where
  «to» : String
  text : String
  type : String
  extraFrom : Option String
deriving Repr, DecidableEq

/-- The joi `messageSchema`: `to` a string of length 3–20, `text` a
non-empty string, `type` one of `message`/`private_message`, and no
unknown keys. -/
def validMessageBody (b : MsgBody) : Bool :=
  b.extraFrom == none
    && decide (3 ≤ b.«to».length) && decide (b.«to».length ≤ 20)
    && !(b.text == "")
    && (b.type == "message" || b.type == "private_message")

/-- POST /participants of `src/unnamed/part_000`: sanitize the raw name,
validate the RAW body against `participantSchema` (string of length 3–20),
409 if the sanitized name `$regex`-matches an existing participant name
case-insensitively, else insert `{name, lastStatus: now}` and the
"entra na sala..." status broadcast. -/
def registerParticipant (db : Db) (rawName : String) (now : Int) (ts : String) :
    Status × Db :=
  let name := sanitize rawName
  if rawName.length < 3 ∨ 20 < rawName.length then (.validationError, db)
  else if db.participants.any (fun p => nameMatches name p.name) then (.conflict, db)
  else (.created,
    { participants := db.participants ++ [⟨name, now⟩]
      messages := db.messages ++ [⟨db.nextId, name, "Todos", "entra na sala...", "status", ts⟩]
      nextId := db.nextId + 1 })

/-- POST /messages of `src/unnamed/part_000`: validate the body, 422 if the
header identity has no exact-match participant, else insert the sanitized
message with `from` taken from the header. -/
def sendMessage (db : Db) (headerUser : String) (body : MsgBody) (ts : String) :
    Status × Db :=
  if !(validMessageBody body) then (.validationError, db)
  else if !(db.participants.any (fun p => p.name == headerUser)) then (.unregistered, db)
  else (.created,
    { db with
      messages := db.messages ++
        [⟨db.nextId, sanitize headerUser, sanitize body.«to», sanitize body.text,
          sanitize body.type, ts⟩]
      nextId := db.nextId + 1 })

/-- POST /messages of `src/index.js`: same checks, but the insert is
`{from: from, ...message, time}` — the body is spread over the `from`
field, so a body `from` key (here `extraFrom`) would override the header
value; nothing is sanitized in this variant. -/
def sendMessageIndex (db : Db) (headerUser : String) (body : MsgBody) (ts : String) :
    Status × Db :=
  if !(validMessageBody body) then (.validationError, db)
  else if !(db.participants.any (fun p => p.name == headerUser)) then (.unregistered, db)
  else (.created,
    { db with
      messages := db.messages ++
        [⟨db.nextId, body.extraFrom.getD headerUser, body.«to», body.text, body.type, ts⟩]
      nextId := db.nextId + 1 })

/-- The `$or` visibility filter of GET /messages: sender, direct recipient,
public `message`, or `status` broadcast. -/
def visibleTo (user : String) (m : Message) : Bool :=
  m.«from» == user || m.«to» == user || m.type == "message" || m.type == "status"

/-- GET /messages of `src/unnamed/part_000`.  In the JS,
`const orderedMessages = messages.reverse()` reverses the `messages` array
IN PLACE (`Array.prototype.reverse` mutates and returns the same array), so
the no-limit branch's `res.send(messages)` sends the reversed array; the
positive-limit branch sends `orderedMessages.slice(0, limit).reverse()`.
`limit = none` models a missing or non-numeric `limit` query parameter
(`parseInt` yields `NaN`, and `!NaN` selects the no-limit branch). -/
def listMessagesV0 (db : Db) (user : String) (limit : Option Int) :
    Status × List Message :=
  if !(db.participants.any (fun p => p.name == user)) then (.unregistered, [])
  else
    let reversed := (db.messages.filter (visibleTo user)).reverse
    match limit with
    | none => (.ok, reversed)
    | some l => if l ≤ 0 then (.ok, reversed) else (.ok, (reversed.take l.toNat).reverse)

/-- GET /messages of `src/unnamed/part_001`: identical to `listMessagesV0`
except both branches send from `orderedMessages` and the limit branch does
NOT reverse the slice: `orderedMessages.slice(0, limit)`. -/
def listMessagesV1 (db : Db) (user : String) (limit : Option Int) :
    Status × List Message :=
  if !(db.participants.any (fun p => p.name == user)) then (.unregistered, [])
  else
    let reversed := (db.messages.filter (visibleTo user)).reverse
    match limit with
    | none => (.ok, reversed)
    | some l => if l ≤ 0 then (.ok, reversed) else (.ok, reversed.take l.toNat)

/-- DELETE /messages/:id of `src/unnamed/part_000`: 404 if no message has
the id, 401 if its `from` differs from the header identity, else
`deleteOne` — remove the first document matching the id. -/
def deleteMessage (db : Db) (headerUser : String) (msgId : Nat) : Status × Db :=
  match db.messages.find? (fun m => m.id == msgId) with
  | none => (.notFound, db)
  | some m =>
    if m.«from» != headerUser then (.unauthorized, db)
    else (.ok, { db with messages := db.messages.eraseP (fun x => x.id == msgId) })

/-- Mongo `updateOne` by `_id`: rewrite the first document matching the id,
leaving every other document in place. -/
def updateById (msgs : List Message) (msgId : Nat) (f : Message → Message) :
    List Message :=
  match msgs with
  | [] => []
  | m :: rest => if m.id == msgId then f m :: rest else m :: updateById rest msgId f

/-- PUT /messages/:id of `src/unnamed/part_000`: validate the body, 422 if
the header identity is not a registered participant, 404 if no message has
the id, 401 if its `from` differs from the header, else `$set` the
sanitized `from`/`to`/`text`/`type` and a fresh `time` on that document
(the `_id` is untouched). -/
def putMessage (db : Db) (headerUser : String) (msgId : Nat) (body : MsgBody)
    (ts : String) : Status × Db :=
  if !(validMessageBody body) then (.validationError, db)
  else if !(db.participants.any (fun p => p.name == headerUser)) then (.unregistered, db)
  else match db.messages.find? (fun m => m.id == msgId) with
    | none => (.notFound, db)
    | some m =>
      if m.«from» != headerUser then (.unauthorized, db)
      else (.ok,
        { db with
          messages := updateById db.messages msgId (fun x =>
            { x with
              «from» := sanitize headerUser
              «to» := sanitize body.«to»
              text := sanitize body.text
              type := sanitize body.type
              time := ts }) })

/-- One participant's departure broadcast, as built by the reaper. -/
def leaveMessage (msgId : Nat) (name : String) (ts : String) : Message :=
  ⟨msgId, name, "Todos", "sai da sala...", "status", ts⟩

/-- The reaper's bulk `insertMany` payload: one departure broadcast per
departed name, with consecutive store-assigned ids. -/
def leaveMessages (msgId : Nat) (ts : String) : List String → List Message
  | [] => []
  | n :: rest => leaveMessage msgId n ts :: leaveMessages (msgId + 1) ts rest

/-- The `inactiveUser` reaper cycle of `src/unnamed/part_000` (run every
15 s): find all participants with `lastStatus < now − 10000`; when any are
found, `deleteMany` every participant whose NAME is in the found list, then
`insertMany` one "sai da sala..." status broadcast per found name as a
single bulk insert. -/
def inactiveUser (db : Db) (now : Int) (ts : String) : Db :=
  let threshold := now - 10 * 1000
  let inactive := db.participants.filter (fun p => p.lastStatus < threshold)
  if inactive.isEmpty then db
  else
    let names := inactive.map (fun p => p.name)
    { participants := db.participants.filter (fun p => !(names.contains p.name))
      messages := db.messages ++ leaveMessages db.nextId ts names
      nextId := db.nextId + names.length }

/-- The `inactiveUser` reaper cycle of `src/unnamed/part_001` (run every
15 s): the same stale query (`lastStatus < now − 10000`) and the same
name-based `deleteMany`, but the function ends after the delete — this
variant inserts NO departure broadcasts. -/
def inactiveUserV1 (db : Db) (now : Int) : Db :=
  let threshold := now - 10 * 1000
  let inactive := db.participants.filter (fun p => p.lastStatus < threshold)
  if inactive.isEmpty then db
  else
    let names := inactive.map (fun p => p.name)
    { db with
      participants := db.participants.filter (fun p => !(names.contains p.name)) }

/-! Concrete sample data used by witnesses and counterexamples. -/

/-- Sample message 0: public broadcast from Alice. -/
def exM0 : Message := ⟨0, "Alice", "Todos", "oi 1", "message", "10:00:00"⟩

/-- Sample message 1: public broadcast from Bob. -/
def exM1 : Message := ⟨1, "Bob", "Todos", "oi 2", "message", "10:00:01"⟩

/-- Sample message 2: private message Alice → Bob. -/
def exM2 : Message := ⟨2, "Alice", "Bob", "segredo", "private_message", "10:00:02"⟩

/-- Sample message 3: public broadcast from Alice. -/
def exM3 : Message := ⟨3, "Alice", "Todos", "oi 3", "message", "10:00:03"⟩

/-- Sample message 4: public broadcast from Bob. -/
def exM4 : Message := ⟨4, "Bob", "Todos", "oi 4", "message", "10:00:04"⟩

/-- Sample database: Alice, Bob and Carol registered, five stored messages
in insertion order.  All five are visible to Alice and Bob; Carol does not
see the private `exM2`. -/
def exDb : Db :=
  { participants := [⟨"Alice", 0⟩, ⟨"Bob", 0⟩, ⟨"Carol", 0⟩]
    messages := [exM0, exM1, exM2, exM3, exM4]
    nextId := 5 }

/-- A schema-valid message body with no unknown keys. -/
def exBody : MsgBody := ⟨"Todos", "novo texto", "message", none⟩

/-- The database produced by registering "Maria" into an empty store. -/
def exMariaDb : Db :=
  { participants := [⟨"Maria", 1⟩]
    messages := [⟨0, "Maria", "Todos", "entra na sala...", "status", "09:00:00"⟩]
    nextId := 1 }

/-- Reaper sample: "Old" is stale at `now = 20000`, "New" is fresh. -/
def exReapDb : Db :=
  { participants := [⟨"Old", 0⟩, ⟨"New", 15000⟩]
    messages := []
    nextId := 7 }

/-! Helper lemmas shared by the claim theorems. -/

theorem prefixMatch_self (l : List Char) : prefixMatch l l = true := by
  induction l with
  | nil => rfl
  | cons a as ih => simp [prefixMatch, ih]

theorem substrMatch_self (l : List Char) : substrMatch l l = true := by
  cases l with
  | nil => rfl
  | cons c rest => simp [substrMatch, prefixMatch_self]

/-- A name always `$regex`-matches itself. -/
theorem nameMatches_self (s : String) : nameMatches s s = true :=
  substrMatch_self _

/-- With store-unique ids, Mongo's `updateOne` by id is the pointwise
rewrite of every matching document (there is at most one). -/
theorem updateById_eq_map (msgs : List Message) (i : Nat) (f : Message → Message)
    (h : (msgs.map Message.id).Nodup) :
    updateById msgs i f = msgs.map (fun x => if x.id = i then f x else x) := by
  induction msgs with
  | nil => rfl
  | cons m rest ih =>
    rw [List.map_cons, List.nodup_cons] at h
    by_cases hm : m.id = i
    · have hrest : ∀ x ∈ rest, ¬ x.id = i := by
        intro x hx he
        exact h.1 (hm ▸ he ▸ List.mem_map_of_mem Message.id hx)
      rw [updateById, if_pos (by simpa using hm), List.map_cons, if_pos hm,
        List.map_congr_left (fun x hx => if_neg (hrest x hx))]
      simp
    · rw [updateById, if_neg (by simpa using hm), List.map_cons, if_neg hm,
        ih h.2]

/-- With store-unique ids, Mongo's `deleteOne` by id keeps exactly the
documents with a different id. -/
theorem erasePId_eq_filter (msgs : List Message) (i : Nat)
    (h : (msgs.map Message.id).Nodup) :
    msgs.eraseP (fun x => x.id == i) = msgs.filter (fun x => x.id ≠ i) := by
  induction msgs with
  | nil => rfl
  | cons m rest ih =>
    rw [List.map_cons, List.nodup_cons] at h
    by_cases hm : m.id = i
    · have hrest : ∀ x ∈ rest, (fun x => decide (x.id ≠ i)) x = true := by
        intro x hx
        have : ¬ x.id = i := fun he =>
          h.1 (hm ▸ he ▸ List.mem_map_of_mem Message.id hx)
        simpa using this
      rw [List.eraseP_cons, show (m.id == i) = true by simpa using hm]
      rw [List.filter_cons, if_neg (by simpa using hm)]
      exact (List.filter_eq_self.mpr hrest).symm
    · rw [List.eraseP_cons, show (m.id == i) = false by simpa using hm]
      rw [List.filter_cons, if_pos (by simpa using hm)]
      simpa using ih h.2

/-- DELETE /messages/:id in the owner case: the matching document goes,
everything else stays. -/
theorem deleteMessage_owner_eq (db : Db) (u : String) (i : Nat) (m : Message)
    (hnodup : (db.messages.map Message.id).Nodup)
    (hfind : db.messages.find? (fun x => x.id == i) = some m)
    (hown : m.«from» = u) :
    deleteMessage db u i =
      (Status.ok, { db with messages := db.messages.filter (fun x => x.id ≠ i) }) := by
  have hb : (m.«from» != u) = false := by simp [hown]
  simp only [deleteMessage, hfind, hb, Bool.false_eq_true, if_false]
  rw [erasePId_eq_filter _ _ hnodup]

/-- PUT /messages/:id in the owner case: the matching document gets the
sanitized `from`/`to`/`text`/`type` and fresh `time`, its id and every
other document stay. -/
theorem putMessage_owner_eq (db : Db) (u : String) (i : Nat) (body : MsgBody)
    (ts : String) (m : Message)
    (hnodup : (db.messages.map Message.id).Nodup)
    (hv : validMessageBody body = true)
    (hreg : db.participants.any (fun p => p.name == u) = true)
    (hfind : db.messages.find? (fun x => x.id == i) = some m)
    (hown : m.«from» = u) :
    putMessage db u i body ts =
      (Status.ok,
        { db with
          messages := db.messages.map (fun x =>
            if x.id = i then
              { id := x.id, «from» := sanitize u, «to» := sanitize body.«to»,
                text := sanitize body.text, type := sanitize body.type, time := ts }
            else x) }) := by
  have hb : (m.«from» != u) = false := by simp [hown]
  simp only [putMessage, hv, hreg, Bool.not_true, Bool.false_eq_true, if_false,
    hfind, hb]
  rw [updateById_eq_map _ _ _ hnodup]

/-! Claim theorems. -/

/-- C1 (amended): with a positive `limit` and a registered user, the
part_000 GET /messages handler returns the LAST `limit` visible messages in
insertion order — the chronological tail `List.rtake` — while the part_001
handler returns those same messages newest-first (its `slice` is not
followed by a reverse). -/
theorem c1_limit_returns_tail (db : Db) (user : String) (l : Int)
    (hreg : db.participants.any (fun p => p.name == user) = true)
    (hl : 0 < l) :
    listMessagesV0 db user (some l) =
      (Status.ok, (db.messages.filter (visibleTo user)).rtake l.toNat) ∧
    listMessagesV1 db user (some l) =
      (Status.ok, ((db.messages.filter (visibleTo user)).rtake l.toNat).reverse) := by
  constructor
  · simp only [listMessagesV0, hreg, Bool.not_true, Bool.false_eq_true, if_false]
    rw [if_neg (by omega), ← List.rtake_eq_reverse_take_reverse]
  · simp only [listMessagesV1, hreg, Bool.not_true, Bool.false_eq_true, if_false]
    rw [if_neg (by omega),
      show (db.messages.filter (visibleTo user)).reverse.take l.toNat
          = ((db.messages.filter (visibleTo user)).rtake l.toNat).reverse by
        rw [List.rtake_eq_reverse_take_reverse, List.reverse_reverse]]

/-- C1 witness: in the sample database all five messages are visible to
Alice, and `limit = 2` yields the chronological tail (part_000) and its
reversal (part_001). -/
theorem c1_witness :
    listMessagesV0 exDb "Alice" (some 2) =
      (Status.ok, (exDb.messages.filter (visibleTo "Alice")).rtake (2 : Int).toNat) ∧
    listMessagesV1 exDb "Alice" (some 2) =
      (Status.ok,
        ((exDb.messages.filter (visibleTo "Alice")).rtake (2 : Int).toNat).reverse) :=
  c1_limit_returns_tail exDb "Alice" 2 (by decide) (by decide)

/-- C1 counterexample: the claim as stated (oldest-first tail) fails on the
part_001 handler: Carol's four visible messages with `limit = 2` come back
as `[exM4, exM3]`, not the chronological `[exM3, exM4]`. -/
theorem c1_counterexample :
    listMessagesV1 exDb "Carol" (some 2) = (Status.ok, [exM4, exM3]) ∧
    ([exM4, exM3] : List Message) ≠ [exM3, exM4] :=
  ⟨by decide, by decide⟩

/-- C2: the claim says a missing (or non-positive) limit returns the full
visible set in chronological ascending order; the code returns the full
visible set REVERSED, because `messages.reverse()` had already reversed the
array in place when the no-limit branch sends it (part_000 sends the
mutated `messages`, part_001 sends `orderedMessages`).  At this input the
visible set in insertion order is `[exM0, …, exM4]` but both handlers
answer `[exM4, …, exM0]`. -/
theorem c2_no_limit_listing_reversed :
    listMessagesV0 exDb "Alice" none = (Status.ok, [exM4, exM3, exM2, exM1, exM0]) ∧
    listMessagesV1 exDb "Alice" none = (Status.ok, [exM4, exM3, exM2, exM1, exM0]) ∧
    exDb.messages.filter (visibleTo "Alice") = [exM0, exM1, exM2, exM3, exM4] ∧
    ([exM4, exM3, exM2, exM1, exM0] : List Message) ≠ [exM0, exM1, exM2, exM3, exM4] :=
  ⟨by decide, by decide, by decide, by decide⟩

/-- C3: for a registered user, a stored message appears in the GET
/messages listing exactly when the user is its sender, or its recipient, or
its type is `message` or `status`. -/
theorem c3_visibility_iff (db : Db) (user : String) (m : Message)
    (hreg : db.participants.any (fun p => p.name == user) = true) :
    m ∈ (listMessagesV0 db user none).2 ↔
      m ∈ db.messages ∧
        (m.«from» = user ∨ m.«to» = user ∨ m.type = "message" ∨ m.type = "status") := by
  simp [listMessagesV0, hreg, visibleTo, List.mem_filter, or_assoc]

/-- C3 witness: the private message Alice → Bob is not in third-party
Carol's listing, matching the visibility predicate. -/
theorem c3_witness :
    exM2 ∈ (listMessagesV0 exDb "Carol" none).2 ↔
      exM2 ∈ exDb.messages ∧
        (exM2.«from» = "Carol" ∨ exM2.«to» = "Carol" ∨ exM2.type = "message" ∨
          exM2.type = "status") :=
  c3_visibility_iff exDb "Carol" exM2 (by decide)

/-- C4: a length-valid name whose sanitized form case-insensitively
`$regex`-matches an existing participant name is rejected with Conflict and
the store is unchanged; and after any successful registration, registering
the same raw name again yields Conflict with the store unchanged. -/
theorem c4_conflict_on_existing_match :
    (∀ (db : Db) (rawName : String) (now : Int) (ts : String),
        3 ≤ rawName.length → rawName.length ≤ 20 →
        db.participants.any (fun p => nameMatches (sanitize rawName) p.name) = true →
        registerParticipant db rawName now ts = (Status.conflict, db)) ∧
    (∀ (db db2 : Db) (rawName : String) (now now2 : Int) (ts ts2 : String),
        registerParticipant db rawName now ts = (Status.created, db2) →
        registerParticipant db2 rawName now2 ts2 = (Status.conflict, db2)) := by
  constructor
  · intro db rawName now ts h3 h20 hmatch
    simp only [registerParticipant]
    rw [if_neg (by omega)]
    simp [hmatch]
  · intro db db2 rawName now now2 ts ts2 h
    simp only [registerParticipant] at h
    by_cases hval : rawName.length < 3 ∨ 20 < rawName.length
    · rw [if_pos hval] at h
      simp at h
    · rw [if_neg hval] at h
      by_cases hconf :
          (db.participants.any (fun p => nameMatches (sanitize rawName) p.name)) = true
      · rw [if_pos hconf] at h
        simp at h
      · rw [if_neg hconf] at h
        injection h with h1 h2
        subst h2
        simp only [registerParticipant]
        rw [if_neg hval, if_pos (by simp [nameMatches_self])]

/-- C4 witness: "ann" conflicts with the stored "Anna" (case-insensitive
containment), and registering "Maria" twice gives one success then one
conflict. -/
theorem c4_witness :
    registerParticipant ⟨[⟨"Anna", 0⟩], [], 0⟩ "ann" 5 "09:30:00" =
      (Status.conflict, ⟨[⟨"Anna", 0⟩], [], 0⟩) ∧
    registerParticipant exMariaDb "Maria" 7 "09:30:01" = (Status.conflict, exMariaDb) :=
  ⟨c4_conflict_on_existing_match.1 ⟨[⟨"Anna", 0⟩], [], 0⟩ "ann" 5 "09:30:00"
      (by decide) (by decide) (by decide),
    c4_conflict_on_existing_match.2 ⟨[], [], 0⟩ exMariaDb "Maria" 1 7 "09:00:00"
      "09:30:01" (by decide)⟩

/-- C5: editing or deleting with a requester different from the stored
`from` fails with Unauthorized and changes nothing; the owner's delete
removes exactly the addressed record and the owner's edit rewrites exactly
the addressed record (id kept), every other message — and the participant
collection — unchanged. -/
theorem c5_ownership_checks :
    (∀ (db : Db) (u : String) (i : Nat) (m : Message),
        db.messages.find? (fun x => x.id == i) = some m → m.«from» ≠ u →
        deleteMessage db u i = (Status.unauthorized, db)) ∧
    (∀ (db : Db) (u : String) (i : Nat) (m : Message),
        (db.messages.map Message.id).Nodup →
        db.messages.find? (fun x => x.id == i) = some m → m.«from» = u →
        deleteMessage db u i =
          (Status.ok, { db with messages := db.messages.filter (fun x => x.id ≠ i) })) ∧
    (∀ (db : Db) (u : String) (i : Nat) (body : MsgBody) (ts : String) (m : Message),
        validMessageBody body = true →
        db.participants.any (fun p => p.name == u) = true →
        db.messages.find? (fun x => x.id == i) = some m → m.«from» ≠ u →
        putMessage db u i body ts = (Status.unauthorized, db)) ∧
    (∀ (db : Db) (u : String) (i : Nat) (body : MsgBody) (ts : String) (m : Message),
        (db.messages.map Message.id).Nodup →
        validMessageBody body = true →
        db.participants.any (fun p => p.name == u) = true →
        db.messages.find? (fun x => x.id == i) = some m → m.«from» = u →
        putMessage db u i body ts =
          (Status.ok,
            { db with messages := db.messages.map (fun x =>
                if x.id = i then
                  { id := x.id, «from» := sanitize u, «to» := sanitize body.«to»,
                    text := sanitize body.text, type := sanitize body.type, time := ts }
                else x) })) := by
  refine ⟨?_, ?_, ?_, ?_⟩
  · intro db u i m hfind hne
    have hb : (m.«from» != u) = true := by simpa using hne
    simp [deleteMessage, hfind, hb]
  · intro db u i m hnodup hfind hown
    exact deleteMessage_owner_eq db u i m hnodup hfind hown
  · intro db u i body ts m hv hreg hfind hne
    have hb : (m.«from» != u) = true := by simpa using hne
    simp [putMessage, hv, hreg, hfind, hb]
  · intro db u i body ts m hnodup hv hreg hfind hown
    exact putMessage_owner_eq db u i body ts m hnodup hv hreg hfind hown

/-- C5 witness: Bob cannot delete or edit Alice's message `exM0`
(Unauthorized, store unchanged); Alice's delete removes exactly `exM0` and
Alice's edit rewrites exactly `exM0`. -/
theorem c5_witness :
    deleteMessage exDb "Bob" 0 = (Status.unauthorized, exDb) ∧
    deleteMessage exDb "Alice" 0 =
      (Status.ok, { exDb with messages := exDb.messages.filter (fun x => x.id ≠ 0) }) ∧
    putMessage exDb "Bob" 0 exBody "11:00:00" = (Status.unauthorized, exDb) ∧
    putMessage exDb "Alice" 0 exBody "11:00:00" =
      (Status.ok,
        { exDb with messages := exDb.messages.map (fun x =>
            if x.id = 0 then
              { id := x.id, «from» := sanitize "Alice", «to» := sanitize exBody.«to»,
                text := sanitize exBody.text, type := sanitize exBody.type,
                time := "11:00:00" }
            else x) }) :=
  ⟨c5_ownership_checks.1 exDb "Bob" 0 exM0 (by decide) (by decide),
    c5_ownership_checks.2.1 exDb "Alice" 0 exM0 (by decide) (by decide) (by decide),
    c5_ownership_checks.2.2.1 exDb "Bob" 0 exBody "11:00:00" exM0 (by decide)
      (by decide) (by decide) (by decide),
    c5_ownership_checks.2.2.2 exDb "Alice" 0 exBody "11:00:00" exM0 (by decide)
      (by decide) (by decide) (by decide) (by decide)⟩

/-- C6: a successful owner edit replaces `to`/`text`/`type` with the
sanitized body values and `time` with the fresh stamp, while the record's
`from` and id — and every other record — stay unchanged (`sanitize u = u`
holds for every sender this program ever stores, sanitization being
idempotent on its own output). -/
theorem c6_edit_preserves_sender (db : Db) (u : String) (i : Nat) (body : MsgBody)
    (ts : String) (m : Message)
    (hnodup : (db.messages.map Message.id).Nodup)
    (hv : validMessageBody body = true)
    (hreg : db.participants.any (fun p => p.name == u) = true)
    (hfind : db.messages.find? (fun x => x.id == i) = some m)
    (hown : m.«from» = u)
    (hfix : sanitize u = u) :
    putMessage db u i body ts =
      (Status.ok,
        { db with messages := db.messages.map (fun x =>
            if x.id = i then
              { id := x.id, «from» := m.«from», «to» := sanitize body.«to»,
                text := sanitize body.text, type := sanitize body.type, time := ts }
            else x) }) := by
  rw [putMessage_owner_eq db u i body ts m hnodup hv hreg hfind hown,
    show sanitize u = m.«from» from hfix.trans hown.symm]

/-- C6 witness: Alice edits her message `exM3`; the listing record keeps
`from = exM3.from` and `id = 3`, with new body fields and time. -/
theorem c6_witness :
    putMessage exDb "Alice" 3 exBody "12:00:00" =
      (Status.ok,
        { exDb with messages := exDb.messages.map (fun x =>
            if x.id = 3 then
              { id := x.id, «from» := exM3.«from», «to» := sanitize exBody.«to»,
                text := sanitize exBody.text, type := sanitize exBody.type,
                time := "12:00:00" }
            else x) }) :=
  c6_edit_preserves_sender exDb "Alice" 3 exBody "12:00:00" exM3 (by decide)
    (by decide) (by decide) (by decide) (by decide) (by decide)

/-- With store-unique participant names, the reaper's name-based
`deleteMany ({name: {$in: names}})` keeps exactly the fresh participants:
a kept name cannot belong to a second, stale participant. -/
theorem staleFilter_by_name (db : Db) (now : Int)
    (hnodup : (db.participants.map Participant.name).Nodup) :
    db.participants.filter (fun p =>
        !(((db.participants.filter (fun q => q.lastStatus < now - 10 * 1000)).map
            Participant.name).contains p.name)) =
      db.participants.filter (fun p => !(p.lastStatus < now - 10 * 1000)) := by
  have hmem : ∀ p ∈ db.participants,
      (p.name ∈ (db.participants.filter
          (fun q => q.lastStatus < now - 10 * 1000)).map Participant.name) ↔
        p.lastStatus < now - 10 * 1000 := by
    intro p hp
    constructor
    · intro hin
      obtain ⟨q, hq, hqname⟩ := List.mem_map.mp hin
      obtain ⟨hq1, hq2⟩ := List.mem_filter.mp hq
      have hqp : q = p := List.inj_on_of_nodup_map hnodup hq1 hp hqname
      rw [hqp] at hq2
      simpa using hq2
    · intro hs
      exact List.mem_map.mpr ⟨p, List.mem_filter.mpr ⟨hp, by simpa using hs⟩, rfl⟩
  refine List.filter_congr ?_
  intro p hp
  by_cases hs : p.lastStatus < now - 10 * 1000
  · have hin := (hmem p hp).mpr hs
    have hc : ((db.participants.filter
        (fun q => q.lastStatus < now - 10 * 1000)).map Participant.name).contains
          p.name = true := by
      simpa using hin
    rw [hc, show decide (p.lastStatus < now - 10 * 1000) = true by simpa using hs]
  · have hnin : p.name ∉ (db.participants.filter
        (fun q => q.lastStatus < now - 10 * 1000)).map Participant.name :=
      fun hin => hs ((hmem p hp).mp hin)
    have hc : ((db.participants.filter
        (fun q => q.lastStatus < now - 10 * 1000)).map Participant.name).contains
          p.name = false := by
      simpa using hnin
    rw [hc, show decide (p.lastStatus < now - 10 * 1000) = false by simpa using hs]

/-- When no participant is stale, the fresh-keeping filter keeps
everyone. -/
theorem freshFilter_of_no_stale (db : Db) (now : Int)
    (hnil : db.participants.filter (fun p => p.lastStatus < now - 10 * 1000) = []) :
    db.participants.filter (fun p => !(p.lastStatus < now - 10 * 1000)) =
      db.participants := by
  refine List.filter_eq_self.mpr ?_
  intro p hp
  have h := List.filter_eq_nil_iff.mp hnil p hp
  have h2 : ¬(p.lastStatus < now - 10 * 1000) := by simpa using h
  simpa using h2

/-- C7 (amended): a reaper cycle of either cited variant removes exactly
the participants whose `lastStatus` is strictly older than `now − 10 s`
(given store-unique names) and leaves every fresh participant untouched;
the part_000 reaper appends — as one bulk list — exactly one
"sai da sala..."/"Todos"/`status` broadcast per departed participant,
while the part_001 reaper inserts no departure broadcasts at all and
leaves the message collection unchanged. -/
theorem c7_reaper_cycle (db : Db) (now : Int) (ts : String)
    (hnodup : (db.participants.map Participant.name).Nodup) :
    ((inactiveUser db now ts).participants =
        db.participants.filter (fun p => !(p.lastStatus < now - 10 * 1000)) ∧
      (inactiveUser db now ts).messages =
        db.messages ++
          leaveMessages db.nextId ts
            ((db.participants.filter (fun p => p.lastStatus < now - 10 * 1000)).map
              Participant.name) ∧
      (inactiveUser db now ts).nextId =
        db.nextId +
          ((db.participants.filter (fun p => p.lastStatus < now - 10 * 1000)).map
            Participant.name).length) ∧
    ((inactiveUserV1 db now).participants =
        db.participants.filter (fun p => !(p.lastStatus < now - 10 * 1000)) ∧
      (inactiveUserV1 db now).messages = db.messages ∧
      (inactiveUserV1 db now).nextId = db.nextId) := by
  by_cases hempty :
      (db.participants.filter (fun p => p.lastStatus < now - 10 * 1000)).isEmpty = true
  · have hnil : db.participants.filter (fun p => p.lastStatus < now - 10 * 1000) = [] :=
      List.isEmpty_iff.mp hempty
    have hfresh := freshFilter_of_no_stale db now hnil
    have hV0 : inactiveUser db now ts = db := by
      simp only [inactiveUser]
      rw [if_pos hempty]
    have hV1 : inactiveUserV1 db now = db := by
      simp only [inactiveUserV1]
      rw [if_pos hempty]
    refine ⟨⟨?_, ?_, ?_⟩, ?_, ?_, ?_⟩
    · rw [hV0, hfresh]
    · rw [hV0, hnil]
      simp [leaveMessages]
    · rw [hV0, hnil]
      simp
    · rw [hV1, hfresh]
    · rw [hV1]
    · rw [hV1]
  · have hredV0 :
        inactiveUser db now ts =
          { participants := db.participants.filter (fun p =>
              !(((db.participants.filter
                    (fun q => q.lastStatus < now - 10 * 1000)).map
                  Participant.name).contains p.name))
            messages := db.messages ++
              leaveMessages db.nextId ts
                ((db.participants.filter (fun q => q.lastStatus < now - 10 * 1000)).map
                  Participant.name)
            nextId := db.nextId +
              ((db.participants.filter (fun q => q.lastStatus < now - 10 * 1000)).map
                Participant.name).length } := by
      simp only [inactiveUser]
      rw [if_neg hempty]
    have hredV1 :
        inactiveUserV1 db now =
          { db with
            participants := db.participants.filter (fun p =>
              !(((db.participants.filter
                    (fun q => q.lastStatus < now - 10 * 1000)).map
                  Participant.name).contains p.name)) } := by
      simp only [inactiveUserV1]
      rw [if_neg hempty]
    refine ⟨⟨?_, ?_, ?_⟩, ?_, ?_, ?_⟩
    · rw [hredV0]
      exact staleFilter_by_name db now hnodup
    · rw [hredV0]
    · rw [hredV0]
    · rw [hredV1]
      exact staleFilter_by_name db now hnodup
    · rw [hredV1]
    · rw [hredV1]

/-- C7 witness: at `now = 20000` the stale "Old" (lastStatus 0) is removed
by both reapers while the fresh "New" (lastStatus 15000) survives; part_000
emits one departure broadcast for "Old", part_001 leaves the message
collection unchanged. -/
theorem c7_witness :
    ((inactiveUser exReapDb 20000 "12:00:00").participants =
        exReapDb.participants.filter (fun p => !(p.lastStatus < 20000 - 10 * 1000)) ∧
      (inactiveUser exReapDb 20000 "12:00:00").messages =
        exReapDb.messages ++
          leaveMessages exReapDb.nextId "12:00:00"
            ((exReapDb.participants.filter
                (fun p => p.lastStatus < 20000 - 10 * 1000)).map Participant.name) ∧
      (inactiveUser exReapDb 20000 "12:00:00").nextId =
        exReapDb.nextId +
          ((exReapDb.participants.filter
              (fun p => p.lastStatus < 20000 - 10 * 1000)).map
            Participant.name).length) ∧
    ((inactiveUserV1 exReapDb 20000).participants =
        exReapDb.participants.filter (fun p => !(p.lastStatus < 20000 - 10 * 1000)) ∧
      (inactiveUserV1 exReapDb 20000).messages = exReapDb.messages ∧
      (inactiveUserV1 exReapDb 20000).nextId = exReapDb.nextId) :=
  c7_reaper_cycle exReapDb 20000 "12:00:00" (by decide)

/-- C7 counterexample: the claim as stated fails on the part_001 reaper it
cites: at `now = 20000` the stale "Old" is removed from the registry, yet
the message collection stays empty — no "sai da sala..." broadcast is
inserted for the departed participant. -/
theorem c7_counterexample :
    (⟨"Old", 0⟩ : Participant) ∈ exReapDb.participants ∧
    (inactiveUserV1 exReapDb 20000).participants = [⟨"New", 15000⟩] ∧
    (inactiveUserV1 exReapDb 20000).messages = [] :=
  ⟨by decide, by decide, by decide⟩

/-- C8: a schema-valid send whose header identity has no exact-match entry
in the participant collection fails as an unregistered sender and leaves
the store — in particular the message collection — unchanged. -/
theorem c8_unregistered_sender_rejected (db : Db) (u : String) (body : MsgBody)
    (ts : String) (hv : validMessageBody body = true)
    (habs : db.participants.any (fun p => p.name == u) = false) :
    sendMessage db u body ts = (Status.unregistered, db) := by
  simp [sendMessage, hv, habs]

/-- C8 witness: "Zoe" is not registered in the sample database, so her
schema-valid send is rejected and the database is unchanged. -/
theorem c8_witness :
    sendMessage exDb "Zoe" exBody "11:30:00" = (Status.unregistered, exDb) :=
  c8_unregistered_sender_rejected exDb "Zoe" exBody "11:30:00" (by decide) (by decide)

/-- C9: on a successful send the stored `from` equals the identity header:
the schema forces `extraFrom = none`, so `src/index.js`'s spread
`{from: from, ...message, time}` cannot be overridden by the body, and
part_000 stores the sanitized header, which equals the header for every
name the registry can hold (`sanitize u = u`). -/
theorem c9_sender_is_header (db : Db) (u : String) (body : MsgBody) (ts : String)
    (hv : validMessageBody body = true)
    (hreg : db.participants.any (fun p => p.name == u) = true)
    (hfix : sanitize u = u) :
    body.extraFrom = none ∧
    sendMessageIndex db u body ts =
      (Status.created,
        { db with
          messages := db.messages ++
            [⟨db.nextId, u, body.«to», body.text, body.type, ts⟩]
          nextId := db.nextId + 1 }) ∧
    sendMessage db u body ts =
      (Status.created,
        { db with
          messages := db.messages ++
            [⟨db.nextId, u, sanitize body.«to», sanitize body.text,
              sanitize body.type, ts⟩]
          nextId := db.nextId + 1 }) := by
  have h1 : (body.extraFrom == none) = true := by
    simp only [validMessageBody, Bool.and_eq_true] at hv
    exact hv.1.1.1.1
  have hnone : body.extraFrom = none := eq_of_beq h1
  refine ⟨hnone, ?_, ?_⟩
  · have hv2 : validMessageBody body = true := by
      simp only [validMessageBody, Bool.and_eq_true] at *
      exact hv
    simp [sendMessageIndex, hv2, hreg, hnone]
  · have hv2 : validMessageBody body = true := by
      simp only [validMessageBody, Bool.and_eq_true] at *
      exact hv
    simp [sendMessage, hv2, hreg, hfix]

/-- C9 witness: Alice's schema-valid send stores `from = "Alice"` in both
embedded variants. -/
theorem c9_witness :
    exBody.extraFrom = none ∧
    sendMessageIndex exDb "Alice" exBody "13:00:00" =
      (Status.created,
        { exDb with
          messages := exDb.messages ++
            [⟨exDb.nextId, "Alice", exBody.«to», exBody.text, exBody.type, "13:00:00"⟩]
          nextId := exDb.nextId + 1 }) ∧
    sendMessage exDb "Alice" exBody "13:00:00" =
      (Status.created,
        { exDb with
          messages := exDb.messages ++
            [⟨exDb.nextId, "Alice", sanitize exBody.«to», sanitize exBody.text,
              sanitize exBody.type, "13:00:00"⟩]
          nextId := exDb.nextId + 1 }) :=
  c9_sender_is_header exDb "Alice" exBody "13:00:00" (by decide) (by decide) (by decide)

/-- C10: length validation inspects the raw name while the stripped and
trimmed name is stored: the raw `"<b></b>ab"` has length 9 (inside 3–20),
so registration succeeds, yet the stored participant name `"ab"` has
length 2, outside the 3–20 bound. -/
theorem c10_stored_name_outside_bound :
    registerParticipant ⟨[], [], 0⟩ "<b></b>ab" 99 "10:00:00" =
      (Status.created,
        { participants := [⟨"ab", 99⟩]
          messages := [⟨0, "ab", "Todos", "entra na sala...", "status", "10:00:00"⟩]
          nextId := 1 }) ∧
    3 ≤ ("<b></b>ab" : String).length ∧ ("<b></b>ab" : String).length ≤ 20 ∧
    ("ab" : String).length < 3 :=
  ⟨by decide, by decide, by decide, by decide⟩
